import Mathlib

/-
Verification of the routing / parameter-binding layer of the
`typescript-rest` repository.

Embedded from the source:
  * `src/lib/decorators.ts` — the decorator processors that populate the
    in-memory metadata registry (`PathTypeDecorator`, `AcceptTypeDecorator`,
    `AcceptLanguageTypeDecorator`, their method-level variants,
    `processDecoratedParameter`, `processHttpVerb`, `processServiceMethod`).
  * `src/typescript-rest.ts` — `searchConfigFile`.

The request-time engine (`server-container.ts`, `server-types.ts`,
`metadata.ts`, `server-return.ts`, `server-errors.ts`) is not part of the
source tree made available here; only its declarations, callers and tests
are.  Those parts are modelled from the specification text and are marked
`Modelled from the spec:` in their doc comments.

TypeScript mutation is embedded by explicit state passing: a decorator
processor is a function from a metadata record to a metadata record, a
processor that can `throw` returns the record together with an optional
error message (the record reflects the mutations performed before the
throw, matching JavaScript semantics where mutations survive an exception).
-/

set_option autoImplicit false

namespace TypescriptRest

/-- The HTTP verbs supported by the framework (enum `HttpMethod` of
`server-types.ts`, as enumerated by the verb decorators `GET`, `POST`,
`PUT`, `DELETE`, `HEAD`, `OPTIONS`, `PATCH` in `src/lib/decorators.ts`). -/
inductive HttpMethod where
  | GET
  | POST
  | PUT
  | DELETE
  | HEAD
  | OPTIONS
  | PATCH
  deriving DecidableEq, Repr

/-- The parameter kinds of `metadata.ParamType`, exactly the constructors
referenced from `src/lib/decorators.ts`. -/
inductive ParamType where
  | path
  | query
  | header
  | cookie
  | form
  | body
  | file
  | files
  | context
  | context_request
  | context_response
  | context_next
  | context_accept_language
  | context_accept
  deriving DecidableEq, Repr

/-- A declared method parameter (`metadata.MethodParam`): its decorator-given
name (`none` for an undecorated parameter) and its `ParamType`.  The TS
design type carried alongside is not needed by any claim and is omitted. -/
structure MethodParam where
  name : Option String
  paramType : ParamType
  deriving DecidableEq, Repr

/-- A file-upload declaration (`metadata.FileParam`): field name and whether
a single file is expected (`@FileParam`) or a list (`@FilesParam`). -/
structure FileParam where
  name : Option String
  singleFile : Bool
  deriving DecidableEq, Repr

/-- The registry entry for one service method (`metadata.ServiceMethod`),
with the fields read or written by `src/lib/decorators.ts`. -/
structure ServiceMethod where
  name : Option String := none
  path : Option String := none
  httpMethod : Option HttpMethod := none
  parameters : List MethodParam := []
  accepts : List String := []
  languages : List String := []
  mustParseCookies : Bool := false
  mustParseForms : Bool := false
  mustParseBody : Bool := false
  files : List FileParam := []
  deriving DecidableEq, Repr

/-- The registry entry for one service class (`metadata.ServiceClass`),
with the fields written by `src/lib/decorators.ts`. -/
structure ServiceClass where
  path : Option String := none
  accepts : List String := []
  languages : List String := []
  properties : List (String × ParamType) := []
  deriving DecidableEq, Repr

/-- Processor for `@Path` on a class (`PathTypeDecorator`,
`src/lib/decorators.ts` line 375): sets `classData.path`. -/
def PathTypeDecorator (target : ServiceClass) (path : String) : ServiceClass :=
  { target with path := some path }

/-- Processor for `@AcceptLanguage` on a class
(`AcceptLanguageTypeDecorator`, line 337): sets `classData.languages`. -/
def AcceptLanguageTypeDecorator (target : ServiceClass) (languages : List String) : ServiceClass :=
  { target with languages := languages }

/-- Processor for `@Accept` on a class (`AcceptTypeDecorator`, line 356):
sets `classData.accepts`. -/
def AcceptTypeDecorator (target : ServiceClass) (accepts : List String) : ServiceClass :=
  { target with accepts := accepts }

/-- Processor for `@Path` on a method (`PathMethodDecorator`, line 383):
sets `serviceMethod.path`. -/
def PathMethodDecorator (m : ServiceMethod) (path : String) : ServiceMethod :=
  { m with path := some path }

/-- Processor for `@AcceptLanguage` on a method
(`AcceptLanguageMethodDecorator`, line 345): sets `serviceMethod.languages`. -/
def AcceptLanguageMethodDecorator (m : ServiceMethod) (languages : List String) : ServiceMethod :=
  { m with languages := languages }

/-- Processor for `@Accept` on a method (`AcceptMethodDecorator`, line 364):
sets `serviceMethod.accepts`. -/
def AcceptMethodDecorator (m : ServiceMethod) (accepts : List String) : ServiceMethod :=
  { m with accepts := accepts }

/-- The padding loop shared by `processDecoratedParameter` (line 400) and
`processServiceMethod` (line 441): while `parameters.length` is below the
reflected parameter count, push a `MethodParam` with `null` name and
`ParamType.body`.  So every parameter position that carries no parameter
decorator is registered as a body parameter. -/
def padBody (params : List MethodParam) (paramTypesLen : Nat) : List MethodParam :=
  params ++ List.replicate (paramTypesLen - params.length) ⟨none, ParamType.body⟩

/-- Processor for parameter decorators (`processDecoratedParameter`,
line 394): pad `parameters` with body entries up to the reflected length,
then overwrite position `parameterIndex` with the decorated entry. -/
def processDecoratedParameter (params : List MethodParam) (parameterIndex paramTypesLen : Nat)
    (paramType : ParamType) (name : Option String) : List MethodParam :=
  (padBody params paramTypesLen).set parameterIndex ⟨name, paramType⟩

/-- Error message thrown when a form parameter and a body parameter are
declared on the same method (`processServiceMethod`, lines 458 and 464). -/
def formBodyErrorMsg : String :=
  "Can not use form parameters with a body parameter on the same method."

/-- Error message thrown when two body parameters are declared on the same
method (`processServiceMethod`, line 467). -/
def multiBodyErrorMsg : String :=
  "Can not use more than one body parameter on the same method."

/-- The `forEach` loop of `processServiceMethod` (lines 446-471), walking the
parameter list while mutating the flags and `files` of the method entry.
A thrown `Error` is the `some` message in the second component; the first
component keeps the mutations performed before the throw. -/
def processParams : List MethodParam → ServiceMethod → ServiceMethod × Option String
  | [], m => (m, none)
  | p :: rest, m =>
    match p.paramType with
    | ParamType.cookie => processParams rest { m with mustParseCookies := true }
    | ParamType.file => processParams rest { m with files := m.files ++ [⟨p.name, true⟩] }
    | ParamType.files => processParams rest { m with files := m.files ++ [⟨p.name, false⟩] }
    | ParamType.form =>
      if m.mustParseBody then (m, some formBodyErrorMsg)
      else processParams rest { m with mustParseForms := true }
    | ParamType.body =>
      if m.mustParseForms then (m, some formBodyErrorMsg)
      else if m.mustParseBody then (m, some multiBodyErrorMsg)
      else processParams rest { m with mustParseBody := true }
    | _ => processParams rest m

/-- Registration-time validation of a method (`processServiceMethod`,
line 437): record the method name, pad the parameter list to the reflected
parameter count with body parameters, then walk the parameters.  The
reflected return type (line 439) plays no role in any claim and is
omitted. -/
def processServiceMethod (propertyKey : String) (paramTypesLen : Nat)
    (m : ServiceMethod) : ServiceMethod × Option String :=
  let padded := padBody m.parameters paramTypesLen
  processParams padded { m with name := some propertyKey, parameters := padded }

/-- Printable verb name, used in the duplicate-verb error message. -/
def verbName : HttpMethod → String
  | HttpMethod.GET => "GET"
  | HttpMethod.POST => "POST"
  | HttpMethod.PUT => "PUT"
  | HttpMethod.DELETE => "DELETE"
  | HttpMethod.HEAD => "HEAD"
  | HttpMethod.OPTIONS => "OPTIONS"
  | HttpMethod.PATCH => "PATCH"

/-- Processor for verb decorators (`processHttpVerb`, line 420): if the
method entry already carries an `httpMethod`, throw without mutating;
otherwise set `httpMethod` and run `processServiceMethod`. -/
def processHttpVerb (propertyKey : String) (paramTypesLen : Nat)
    (httpMethod : HttpMethod) (m : ServiceMethod) : ServiceMethod × Option String :=
  match m.httpMethod with
  | some v =>
    (m, some ("Method is already annotated with @" ++ verbName v ++
      ". You can only map a method to one HTTP verb."))
  | none =>
    processServiceMethod propertyKey paramTypesLen { m with httpMethod := some httpMethod }

/-- The directory climb of `searchConfigFile` (`src/typescript-rest.ts`,
lines 33-43), one iteration of the `while` loop per call.  A directory is
its list of path components with the innermost component first, so the
parent directory is the tail and the filesystem root is `[]`; the
`configFile === fileOnParent` stop test of line 37 holds exactly at the
root, where `path.join(dirname, '..')` normalizes back to the same
directory.  `ex d` states that a file named `rest.config` exists in
directory `d`. -/
def searchConfigFile (ex : List String → Bool) : List String → Option (List String)
  | [] => if ex [] then some [] else none
  | d :: parent => if ex (d :: parent) then some (d :: parent) else searchConfigFile ex parent

/-- Fuel-indexed transcription of the same `while` loop, returning `none`
when the fuel runs out before the loop exits.  Used to state that the loop
terminates for every filesystem state. -/
def searchConfigFileFuel (ex : List String → Bool) : Nat → List String → Option (Option (List String))
  | 0, _ => none
  | fuel + 1, dir =>
    if ex dir then some (some dir)
    else
      match dir with
      | [] => some none
      | _ :: parent => searchConfigFileFuel ex fuel parent

/-- Modelled from the spec: the content-negotiation metadata visible to the
Content Negotiator, missing with `server-container.ts` — the per-class
declared lists together with the optional per-method declarations (`none`
when the method declares nothing, so the class-level declaration applies;
a method-level declaration governs that method). -/
structure NegotiationMeta where
  classAccepts : List String
  classLanguages : List String
  methodAccepts : Option (List String)
  methodLanguages : Option (List String)
  deriving DecidableEq, Repr

/-- Modelled from the spec: the media types acceptable for a method — the
method-level `@Accept` list when declared, the class-level list otherwise. -/
def effectiveAccepts (meta : NegotiationMeta) : List String :=
  meta.methodAccepts.getD meta.classAccepts

/-- Modelled from the spec: the languages acceptable for a method — the
method-level `@AcceptLanguage` list when declared, the class-level list
otherwise. -/
def effectiveLanguages (meta : NegotiationMeta) : List String :=
  meta.methodLanguages.getD meta.classLanguages

/-- Modelled from the spec: whether the values the request accepts match the
declared list.  An empty declared list means no restriction; a request that
names no acceptable value (no header) accepts the server default. -/
def requestMatches (requested declared : List String) : Bool :=
  declared.isEmpty || requested.isEmpty || requested.any (fun v => declared.contains v)

/-- Modelled from the spec: the Content Negotiator, missing with
`server-container.ts` — matches the acceptable languages and media types of
the request against the declared lists and rejects an unsupported
combination with HTTP status 406 (`some 406`); `none` means the request is
admitted. -/
def negotiate (meta : NegotiationMeta) (reqLanguages reqTypes : List String) : Option Nat :=
  if requestMatches reqLanguages (effectiveLanguages meta) &&
      requestMatches reqTypes (effectiveAccepts meta) then none
  else some 406

/-- Outcome of route resolution by the Dispatcher. -/
inductive DispatchResult where
  | matched
  | methodNotAllowed (allow : List HttpMethod)
  | notFound
  deriving DecidableEq, Repr

/-- Modelled from the spec: the Dispatcher's route resolution, missing with
`server-container.ts` — the routing table is the list of registered
(path, verb) pairs; an unregistered path is "not found" (HTTP 404), a
registered path without the request's verb is "method not allowed"
(HTTP 405) carrying the `Allow` list of every verb registered for the
path. -/
def dispatch (routes : List (String × HttpMethod)) (p : String) (v : HttpMethod) : DispatchResult :=
  let atPath := routes.filter (fun r => decide (r.1 = p))
  if atPath.isEmpty then DispatchResult.notFound
  else if atPath.any (fun r => decide (r.2 = v)) then DispatchResult.matched
  else DispatchResult.methodNotAllowed (atPath.map (fun r => r.2))

/-- Modelled from the spec: the facets of one request from which the
Parameter Binder may draw values, missing with `server-container.ts` —
named lookups for path segments, query string, headers, cookies, form
fields and uploaded files, the request body, and the injected context
objects of the current request.  `V` is the type of bound values. -/
structure RequestFacets (V : Type) where
  pathSegments : String → Option V
  queryString : String → Option V
  headers : String → Option V
  cookies : String → Option V
  formFields : String → Option V
  uploadedFile : String → Option V
  uploadedFiles : String → Option V
  requestBody : V
  contextObj : V
  contextRequest : V
  contextResponse : V
  contextNext : V
  contextLanguage : V
  contextAccept : V

/-- Modelled from the spec: the Parameter Binder, missing with
`server-container.ts` — resolves one declared parameter from the request
facet selected by its registered `ParamType`. -/
def bindParam {V : Type} (req : RequestFacets V) (p : MethodParam) : Option V :=
  match p.paramType with
  | ParamType.path => req.pathSegments (p.name.getD "")
  | ParamType.query => req.queryString (p.name.getD "")
  | ParamType.header => req.headers (p.name.getD "")
  | ParamType.cookie => req.cookies (p.name.getD "")
  | ParamType.form => req.formFields (p.name.getD "")
  | ParamType.file => req.uploadedFile (p.name.getD "")
  | ParamType.files => req.uploadedFiles (p.name.getD "")
  | ParamType.body => some req.requestBody
  | ParamType.context => some req.contextObj
  | ParamType.context_request => some req.contextRequest
  | ParamType.context_response => some req.contextResponse
  | ParamType.context_next => some req.contextNext
  | ParamType.context_accept_language => some req.contextLanguage
  | ParamType.context_accept => some req.contextAccept

/-- The declared types a query parameter can be coerced to. -/
inductive DeclType where
  | number
  | string
  | boolean
  deriving DecidableEq, Repr

/-- A bound JavaScript value: a number (`nan` for a failed numeric parse),
a string, or a boolean. -/
inductive JsValue where
  | num (n : Int)
  | nan
  | str (s : String)
  | bool (b : Bool)
  deriving DecidableEq, Repr

/-- The runtime type of a bound value; `nan` is a number. -/
def jsTypeOf : JsValue → DeclType
  | JsValue.num _ => DeclType.number
  | JsValue.nan => DeclType.number
  | JsValue.str _ => DeclType.string
  | JsValue.bool _ => DeclType.boolean

/-- Modelled from the spec: string-to-declared-type coercion of a raw query
value, missing with `server-container.ts` — a numeric parameter parses the
string as a number (`nan` when the string is not a number, as for the empty
string), a boolean parameter is true exactly for the string `true`. -/
def coerceQuery : DeclType → String → JsValue
  | DeclType.number, s =>
    match s.toInt? with
    | some n => JsValue.num n
    | none => JsValue.nan
  | DeclType.string, s => JsValue.str s
  | DeclType.boolean, s => JsValue.bool (s == "true")

/-- Modelled from the spec: query-parameter binding with a declared default,
missing with `server-container.ts` — a request that omits the parameter
binds the declared default, a request that supplies a raw string binds the
coercion of that string to the declared type. -/
def bindQueryParam (query : List (String × String)) (name : String)
    (declType : DeclType) (defaultValue : JsValue) : JsValue :=
  match query.lookup name with
  | none => defaultValue
  | some raw => coerceQuery declType raw

/-- Modelled from the spec: the specialized return wrappers of
`server-return.ts` (missing), as exercised by the test suite —
`Return.NewResource`, `Return.RequestAccepted`, `Return.MovedPermanently`,
`Return.MovedTemporarily`, each carrying a location and a body of type
`B`. -/
inductive ReturnWrapper (B : Type) where
  | newResource (location : String) (body : B)
  | requestAccepted (location : String) (body : B)
  | movedPermanently (location : String) (body : B)
  | movedTemporarily (location : String) (body : B)
  deriving DecidableEq, Repr

/-- The wire response shaped for a return wrapper: HTTP status, optional
`Location` header, serialized body. -/
structure WireResponse (B : Type) where
  status : Nat
  location : Option String
  body : B
  deriving DecidableEq, Repr

/-- Modelled from the spec: response shaping for the specialized return
wrappers, missing with `server-container.ts` — "new resource created" is
201, "accepted" is 202, the permanent redirect is 301, the temporary
redirect is 302, each with a `Location` header equal to the wrapper's
location and the wrapped body serialized. -/
def shapeReturn {B : Type} : ReturnWrapper B → WireResponse B
  | ReturnWrapper.newResource l b => ⟨201, some l, b⟩
  | ReturnWrapper.requestAccepted l b => ⟨202, some l, b⟩
  | ReturnWrapper.movedPermanently l b => ⟨301, some l, b⟩
  | ReturnWrapper.movedTemporarily l b => ⟨302, some l, b⟩

/-- Modelled from the spec: a structured REST error of `server-errors.ts`
(missing) — an HTTP status code and a message. -/
structure RestError where
  statusCode : Nat
  message : String
  deriving DecidableEq, Repr

/-- Modelled from the spec: `Errors.ConflictError` of `server-errors.ts`
(missing) — the structured REST error with HTTP status code 409. -/
def ConflictError (msg : String) : RestError :=
  ⟨409, msg⟩

/-- How a handler invocation ends: a value, a synchronous throw of a
structured REST error, or a Promise rejected with one. -/
inductive HandlerOutcome (A : Type) where
  | ok (a : A)
  | syncThrow (e : RestError)
  | promiseReject (e : RestError)
  deriving DecidableEq, Repr

/-- Modelled from the spec: serialization of a handler outcome back onto
the wire, missing with `server-container.ts` — a value is serialized as
the success result, a structured REST error (synchronous or from a
rejected Promise) becomes a structured error response carrying the error's
HTTP status code and message. -/
def serializeOutcome {A : Type} : HandlerOutcome A → Except RestError A
  | HandlerOutcome.ok a => Except.ok a
  | HandlerOutcome.syncThrow e => Except.error ⟨e.statusCode, e.message⟩
  | HandlerOutcome.promiseReject e => Except.error ⟨e.statusCode, e.message⟩

/-- Number of form parameters in a declared parameter list. -/
def formCount : List MethodParam → Nat
  | [] => 0
  | p :: rest => (if p.paramType = ParamType.form then 1 else 0) + formCount rest

/-- Number of body parameters in a declared parameter list. -/
def bodyCount : List MethodParam → Nat
  | [] => 0
  | p :: rest => (if p.paramType = ParamType.body then 1 else 0) + bodyCount rest

theorem processParams_fst_httpMethod (l : List MethodParam) :
    ∀ m : ServiceMethod, ((processParams l m).1).httpMethod = m.httpMethod := by
  induction l with
  | nil => intro m; rfl
  | cons p rest ih =>
    intro m
    obtain ⟨n, pt⟩ := p
    cases pt <;> simp only [processParams] <;>
      first
        | exact ih _
        | (split
           · rfl
           · first
               | exact ih _
               | (split
                  · rfl
                  · exact ih _))

theorem processParams_error (l : List MethodParam) :
    ∀ m : ServiceMethod,
      ((m.mustParseBody = true ∧ 1 ≤ formCount l) ∨
       (m.mustParseForms = true ∧ 1 ≤ bodyCount l) ∨
       (m.mustParseBody = true ∧ 1 ≤ bodyCount l) ∨
       (1 ≤ formCount l ∧ 1 ≤ bodyCount l) ∨
       2 ≤ bodyCount l) →
      (processParams l m).2.isSome = true := by
  induction l with
  | nil =>
    intro m h
    simp only [formCount, bodyCount] at h
    omega
  | cons p rest ih =>
    intro m h
    obtain ⟨n, pt⟩ := p
    cases pt
    case path =>
      exact ih _ (by simpa [formCount, bodyCount] using h)
    case query =>
      exact ih _ (by simpa [formCount, bodyCount] using h)
    case header =>
      exact ih _ (by simpa [formCount, bodyCount] using h)
    case cookie =>
      exact ih _ (by simpa [formCount, bodyCount] using h)
    case file =>
      exact ih _ (by simpa [formCount, bodyCount] using h)
    case files =>
      exact ih _ (by simpa [formCount, bodyCount] using h)
    case context =>
      exact ih _ (by simpa [formCount, bodyCount] using h)
    case context_request =>
      exact ih _ (by simpa [formCount, bodyCount] using h)
    case context_response =>
      exact ih _ (by simpa [formCount, bodyCount] using h)
    case context_next =>
      exact ih _ (by simpa [formCount, bodyCount] using h)
    case context_accept_language =>
      exact ih _ (by simpa [formCount, bodyCount] using h)
    case context_accept =>
      exact ih _ (by simpa [formCount, bodyCount] using h)
    case form =>
      cases hfv : m.mustParseForms <;> cases hbv : m.mustParseBody
      · simp only [processParams, hbv, Bool.false_eq_true, if_false]
        refine ih _ ?_
        simp [formCount, bodyCount, hfv, hbv] at h
        simp [formCount, bodyCount]
        omega
      · simp [processParams, hbv]
      · simp only [processParams, hbv, Bool.false_eq_true, if_false]
        refine ih _ ?_
        simp [formCount, bodyCount, hfv, hbv] at h
        simp [formCount, bodyCount]
        omega
      · simp [processParams, hbv]
    case body =>
      cases hfv : m.mustParseForms <;> cases hbv : m.mustParseBody
      · simp only [processParams, hfv, hbv, Bool.false_eq_true, if_false]
        refine ih _ ?_
        simp [formCount, bodyCount, hfv, hbv] at h
        simp [formCount, bodyCount]
        omega
      · simp [processParams, hfv, hbv]
      · simp [processParams, hfv]
      · simp [processParams, hfv]

theorem searchConfigFileFuel_eq (ex : List String → Bool) :
    ∀ (dir : List String) (fuel : Nat), dir.length < fuel →
      searchConfigFileFuel ex fuel dir = some (searchConfigFile ex dir) := by
  intro dir
  induction dir with
  | nil =>
    intro fuel hf
    match fuel with
    | f + 1 =>
      by_cases he : ex []
      · simp [searchConfigFileFuel, searchConfigFile, he]
      · simp [searchConfigFileFuel, searchConfigFile, he]
  | cons a rest ih =>
    intro fuel hf
    match fuel with
    | f + 1 =>
      by_cases he : ex (a :: rest)
      · simp [searchConfigFileFuel, searchConfigFile, he]
      · have : rest.length < f := by simp at hf; omega
        simp [searchConfigFileFuel, searchConfigFile, he, ih f this]

theorem searchConfigFile_finds (ex : List String → Bool) :
    ∀ (dir d : List String), searchConfigFile ex dir = some d → ex d = true := by
  intro dir
  induction dir with
  | nil =>
    intro d h
    by_cases he : ex []
    · simp [searchConfigFile, he] at h
      subst h
      exact he
    · simp [searchConfigFile, he] at h
  | cons a rest ih =>
    intro d h
    by_cases he : ex (a :: rest)
    · simp [searchConfigFile, he] at h
      subst h
      exact he
    · simp [searchConfigFile, he] at h
      exact ih d h

/-- C1: the Content Negotiator matches the request's acceptable languages
and media types against the declared lists — the method-level `@Accept` /
`@AcceptLanguage` declaration when present, the class-level one otherwise —
and every request whose acceptable languages or media types are all
unsupported is rejected with HTTP status 406. -/
theorem content_negotiator_rejects (meta : NegotiationMeta) (reqLanguages reqTypes : List String)
    (h : (reqLanguages ≠ [] ∧ effectiveLanguages meta ≠ [] ∧
            ∀ l ∈ reqLanguages, l ∉ effectiveLanguages meta) ∨
         (reqTypes ≠ [] ∧ effectiveAccepts meta ≠ [] ∧
            ∀ t ∈ reqTypes, t ∉ effectiveAccepts meta)) :
    negotiate meta reqLanguages reqTypes = some 406 ∧
    (∀ L, meta.methodLanguages = some L → effectiveLanguages meta = L) ∧
    (∀ A, meta.methodAccepts = some A → effectiveAccepts meta = A) := by
  refine ⟨?_, ?_, ?_⟩
  · have hfalse : (requestMatches reqLanguages (effectiveLanguages meta) &&
        requestMatches reqTypes (effectiveAccepts meta)) = false := by
      rcases h with ⟨h1, h2, h3⟩ | ⟨h1, h2, h3⟩
      · have hm : requestMatches reqLanguages (effectiveLanguages meta) = false := by
          simp [requestMatches, h1, h2]
          intro x hx
          exact h3 x hx
        simp [hm]
      · have hm : requestMatches reqTypes (effectiveAccepts meta) = false := by
          simp [requestMatches, h1, h2]
          intro x hx
          exact h3 x hx
        simp [hm]
    simp [negotiate, hfalse]
  · intro L hL
    simp [effectiveLanguages, hL]
  · intro A hA
    simp [effectiveAccepts, hA]

/-- Witness for C1: a request accepting only `fr` against a class declaring
`@AcceptLanguage("en", "pt-BR")` is rejected with 406. -/
theorem content_negotiator_rejects_witness :
    ((["fr"] : List String) ≠ [] ∧
      effectiveLanguages ⟨[], ["en", "pt-BR"], none, none⟩ ≠ [] ∧
      ∀ l ∈ (["fr"] : List String), l ∉ effectiveLanguages ⟨[], ["en", "pt-BR"], none, none⟩) ∧
    negotiate ⟨[], ["en", "pt-BR"], none, none⟩ ["fr"] [] = some 406 :=
  ⟨by decide,
    (content_negotiator_rejects ⟨[], ["en", "pt-BR"], none, none⟩ ["fr"] []
      (Or.inl (by decide))).1⟩

/-- C2: the Dispatcher reports "not found" for a request whose path matches
no registered route, and "method not allowed" for a registered path whose
verb has no route there, with an `Allow` list containing exactly the verbs
registered for that path. -/
theorem dispatcher_404_405 (routes : List (String × HttpMethod)) (p : String) (v : HttpMethod) :
    ((∀ r ∈ routes, r.1 ≠ p) → dispatch routes p v = DispatchResult.notFound) ∧
    ((∃ r ∈ routes, r.1 = p) → (∀ r ∈ routes, r.1 = p → r.2 ≠ v) →
      ∃ allow, dispatch routes p v = DispatchResult.methodNotAllowed allow ∧
        ∀ w, w ∈ allow ↔ (p, w) ∈ routes) := by
  constructor
  · intro h
    have hfil : routes.filter (fun r => decide (r.1 = p)) = [] := by
      rw [List.filter_eq_nil_iff]
      intro r hr
      simp [h r hr]
    simp [dispatch, hfil]
  · rintro ⟨r0, hr0, hp0⟩ hall
    have hmem : r0 ∈ routes.filter (fun r => decide (r.1 = p)) := by
      simp [List.mem_filter, hr0, hp0]
    have hne : (routes.filter (fun r => decide (r.1 = p))).isEmpty = false := by
      cases hfil : routes.filter (fun r => decide (r.1 = p))
      · rw [hfil] at hmem
        simp at hmem
      · simp [hfil]
    have hany : (routes.filter (fun r => decide (r.1 = p))).any
        (fun r => decide (r.2 = v)) = false := by
      rw [List.any_eq_false]
      intro r hr
      rw [List.mem_filter] at hr
      have := hall r hr.1 (by simpa using hr.2)
      simp [this]
    refine ⟨(routes.filter (fun r => decide (r.1 = p))).map (fun r => r.2), ?_, ?_⟩
    · simp only [dispatch, hne, hany, Bool.false_eq_true, if_false]
    · intro w
      constructor
      · intro hw
        rw [List.mem_map] at hw
        obtain ⟨r, hr, hrw⟩ := hw
        rw [List.mem_filter] at hr
        have hrp : r.1 = p := by simpa using hr.2
        have : r = (p, w) := by
          cases r
          simp at hrp hrw
          simp [hrp, hrw]
        rw [← this]
        exact hr.1
      · intro hw
        rw [List.mem_map]
        exact ⟨(p, w), by simp [List.mem_filter, hw], rfl⟩

/-- Witness for C2: a POST to a path registered for GET and PUT only is
"method not allowed" and the `Allow` list holds exactly GET and PUT. -/
theorem dispatcher_404_405_witness :
    (∃ r ∈ ([("/asubpath/person/:id", HttpMethod.GET), ("/asubpath/person/:id", HttpMethod.PUT)] :
        List (String × HttpMethod)), r.1 = "/asubpath/person/:id") ∧
    (∀ r ∈ ([("/asubpath/person/:id", HttpMethod.GET), ("/asubpath/person/:id", HttpMethod.PUT)] :
        List (String × HttpMethod)), r.1 = "/asubpath/person/:id" → r.2 ≠ HttpMethod.POST) ∧
    ∃ allow,
      dispatch [("/asubpath/person/:id", HttpMethod.GET), ("/asubpath/person/:id", HttpMethod.PUT)]
          "/asubpath/person/:id" HttpMethod.POST = DispatchResult.methodNotAllowed allow ∧
      ∀ w, w ∈ allow ↔ ("/asubpath/person/:id", w) ∈
        ([("/asubpath/person/:id", HttpMethod.GET), ("/asubpath/person/:id", HttpMethod.PUT)] :
          List (String × HttpMethod)) :=
  ⟨by decide, by decide,
    (dispatcher_404_405
      [("/asubpath/person/:id", HttpMethod.GET), ("/asubpath/person/:id", HttpMethod.PUT)]
      "/asubpath/person/:id" HttpMethod.POST).2 (by decide) (by decide)⟩

/-- C3: the Parameter Binder resolves each declared parameter from exactly
the request facet named by its decorator (`@PathParam` from a path segment,
`@QueryParam` from the query string, `@HeaderParam` from a header,
`@CookieParam` from a cookie, `@FormParam` from a form field,
`@FileParam` / `@FilesParam` from uploaded files, an undecorated parameter
from the request body, the `@Context...` decorators from the injected
context objects), and an undecorated parameter position is registered with
`ParamType.body` by the padding loop. -/
theorem parameter_binder_sources (V : Type) (req : RequestFacets V) (n : String)
    (params : List MethodParam) (i len : Nat) :
    bindParam req ⟨some n, ParamType.path⟩ = req.pathSegments n ∧
    bindParam req ⟨some n, ParamType.query⟩ = req.queryString n ∧
    bindParam req ⟨some n, ParamType.header⟩ = req.headers n ∧
    bindParam req ⟨some n, ParamType.cookie⟩ = req.cookies n ∧
    bindParam req ⟨some n, ParamType.form⟩ = req.formFields n ∧
    bindParam req ⟨some n, ParamType.file⟩ = req.uploadedFile n ∧
    bindParam req ⟨some n, ParamType.files⟩ = req.uploadedFiles n ∧
    (∀ nm : Option String, bindParam req ⟨nm, ParamType.body⟩ = some req.requestBody) ∧
    (∀ nm : Option String, bindParam req ⟨nm, ParamType.context⟩ = some req.contextObj) ∧
    (∀ nm : Option String, bindParam req ⟨nm, ParamType.context_request⟩ = some req.contextRequest) ∧
    (∀ nm : Option String, bindParam req ⟨nm, ParamType.context_response⟩ = some req.contextResponse) ∧
    (∀ nm : Option String, bindParam req ⟨nm, ParamType.context_next⟩ = some req.contextNext) ∧
    (∀ nm : Option String, bindParam req ⟨nm, ParamType.context_accept_language⟩ = some req.contextLanguage) ∧
    (∀ nm : Option String, bindParam req ⟨nm, ParamType.context_accept⟩ = some req.contextAccept) ∧
    (params.length ≤ i → i < len →
      (padBody params len)[i]? = some ⟨none, ParamType.body⟩) := by
  refine ⟨rfl, rfl, rfl, rfl, rfl, rfl, rfl, fun _ => rfl, fun _ => rfl, fun _ => rfl,
    fun _ => rfl, fun _ => rfl, fun _ => rfl, fun _ => rfl, fun h1 h2 => ?_⟩
  unfold padBody
  rw [List.getElem?_append_right h1, List.getElem?_replicate, if_pos (by omega)]

/-- Witness for C3: in a one-parameter method with no parameter decorator,
position 0 is padded to a body parameter. -/
theorem parameter_binder_sources_witness :
    ([] : List MethodParam).length ≤ 0 ∧ 0 < 1 ∧
    (padBody [] 1)[0]? = some ⟨none, ParamType.body⟩ :=
  ⟨by decide, by decide,
    (parameter_binder_sources Unit
      ⟨fun _ => none, fun _ => none, fun _ => none, fun _ => none, fun _ => none,
        fun _ => none, fun _ => none, (), (), (), (), (), (), ()⟩
      "x" [] 0 1).2.2.2.2.2.2.2.2.2.2.2.2.2.2 (by decide) (by decide)⟩

/-- C4: a query parameter with a declared default binds the default when the
request omits it, binds the declared-type coercion of the raw string when
the request supplies one, and the coercion always produces a value of the
declared type. -/
theorem query_default_and_coercion (query : List (String × String)) (name : String)
    (t : DeclType) (d : JsValue) :
    (query.lookup name = none → bindQueryParam query name t d = d) ∧
    (∀ raw, query.lookup name = some raw → bindQueryParam query name t d = coerceQuery t raw) ∧
    (∀ s, jsTypeOf (coerceQuery t s) = t) := by
  refine ⟨fun h => ?_, fun raw h => ?_, fun s => ?_⟩
  · simp [bindQueryParam, h]
  · simp [bindQueryParam, h]
  · cases t
    case number =>
      cases hs : s.toInt? <;> simp [coerceQuery, jsTypeOf, hs]
    case string => rfl
    case boolean => rfl

/-- Witness for C4: `limit=5` binds the number 5 while an omitted `expand`
binds its declared default. -/
theorem query_default_and_coercion_witness :
    ([("limit", "5")] : List (String × String)).lookup "expand" = none ∧
    bindQueryParam [("limit", "5")] "expand" DeclType.boolean (JsValue.bool true) =
      JsValue.bool true ∧
    ([("limit", "5")] : List (String × String)).lookup "limit" = some "5" ∧
    bindQueryParam [("limit", "5")] "limit" DeclType.number (JsValue.num 20) =
      coerceQuery DeclType.number "5" :=
  ⟨by decide,
    (query_default_and_coercion [("limit", "5")] "expand" DeclType.boolean
      (JsValue.bool true)).1 (by decide),
    by decide,
    (query_default_and_coercion [("limit", "5")] "limit" DeclType.number
      (JsValue.num 20)).2.1 "5" (by decide)⟩

/-- C5: the specialized return wrappers shape the response with the matching
status code and a `Location` header equal to the wrapper's location, with
the wrapped body serialized: 201 for `Return.NewResource`, 202 for
`Return.RequestAccepted`, 301 for `Return.MovedPermanently`, 302 for
`Return.MovedTemporarily`. -/
theorem return_wrappers_shape (B : Type) (l : String) (b : B) :
    shapeReturn (ReturnWrapper.newResource l b) = ⟨201, some l, b⟩ ∧
    shapeReturn (ReturnWrapper.requestAccepted l b) = ⟨202, some l, b⟩ ∧
    shapeReturn (ReturnWrapper.movedPermanently l b) = ⟨301, some l, b⟩ ∧
    shapeReturn (ReturnWrapper.movedTemporarily l b) = ⟨302, some l, b⟩ :=
  ⟨rfl, rfl, rfl, rfl⟩

/-- C6: a structured REST error thrown by a handler — synchronously or
inside a rejected Promise — is serialized as a structured error response
carrying the error's HTTP status code; `Errors.ConflictError` carries
409. -/
theorem rest_error_serialization (A : Type) (e : RestError) (msg : String) :
    @serializeOutcome A (HandlerOutcome.syncThrow e) = Except.error ⟨e.statusCode, e.message⟩ ∧
    @serializeOutcome A (HandlerOutcome.promiseReject e) = Except.error ⟨e.statusCode, e.message⟩ ∧
    (ConflictError msg).statusCode = 409 ∧
    @serializeOutcome A (HandlerOutcome.syncThrow (ConflictError msg)) = Except.error ⟨409, msg⟩ ∧
    @serializeOutcome A (HandlerOutcome.promiseReject (ConflictError msg)) = Except.error ⟨409, msg⟩ :=
  ⟨rfl, rfl, rfl, rfl, rfl⟩

/-- C7: every decorator processor only updates the registry entry of the
decorated class or method: `@Path` on a class sets the class path, `@Accept`
sets the accepts list, `@AcceptLanguage` sets the languages list (each
leaving the other class metadata unchanged); the method-level variants do
the same on the method entry; and a verb decorator sets the method entry's
`httpMethod` to that verb.  No request data is consulted: every processor
is a pure function of the registry entry. -/
theorem decorators_register_metadata (c : ServiceClass) (m : ServiceMethod)
    (p : String) (langs mimes : List String) (pk : String) (len : Nat) (v : HttpMethod)
    (hv : m.httpMethod = none) :
    ((processHttpVerb pk len v m).1).httpMethod = some v ∧
    (PathTypeDecorator c p).path = some p ∧
    (PathTypeDecorator c p).accepts = c.accepts ∧
    (PathTypeDecorator c p).languages = c.languages ∧
    (PathTypeDecorator c p).properties = c.properties ∧
    (AcceptTypeDecorator c mimes).accepts = mimes ∧
    (AcceptTypeDecorator c mimes).path = c.path ∧
    (AcceptTypeDecorator c mimes).languages = c.languages ∧
    (AcceptTypeDecorator c mimes).properties = c.properties ∧
    (AcceptLanguageTypeDecorator c langs).languages = langs ∧
    (AcceptLanguageTypeDecorator c langs).path = c.path ∧
    (AcceptLanguageTypeDecorator c langs).accepts = c.accepts ∧
    (AcceptLanguageTypeDecorator c langs).properties = c.properties ∧
    (PathMethodDecorator m p).path = some p ∧
    (PathMethodDecorator m p).httpMethod = m.httpMethod ∧
    (PathMethodDecorator m p).accepts = m.accepts ∧
    (PathMethodDecorator m p).languages = m.languages ∧
    (PathMethodDecorator m p).parameters = m.parameters ∧
    (AcceptMethodDecorator m mimes).accepts = mimes ∧
    (AcceptMethodDecorator m mimes).path = m.path ∧
    (AcceptMethodDecorator m mimes).httpMethod = m.httpMethod ∧
    (AcceptMethodDecorator m mimes).languages = m.languages ∧
    (AcceptLanguageMethodDecorator m langs).languages = langs ∧
    (AcceptLanguageMethodDecorator m langs).path = m.path ∧
    (AcceptLanguageMethodDecorator m langs).httpMethod = m.httpMethod ∧
    (AcceptLanguageMethodDecorator m langs).accepts = m.accepts := by
  refine ⟨?_, rfl, rfl, rfl, rfl, rfl, rfl, rfl, rfl, rfl, rfl, rfl, rfl, rfl, rfl, rfl,
    rfl, rfl, rfl, rfl, rfl, rfl, rfl, rfl, rfl, rfl⟩
  simp [processHttpVerb, hv, processServiceMethod, processParams_fst_httpMethod]

/-- Witness for C7: `@GET` on a freshly registered method sets `httpMethod`
to GET. -/
theorem decorators_register_metadata_witness :
    ({} : ServiceMethod).httpMethod = none ∧
    ((processHttpVerb "getPerson" 1 HttpMethod.GET {}).1).httpMethod = some HttpMethod.GET :=
  ⟨rfl,
    (decorators_register_metadata {} {} "people" ["en"] ["application/json"]
      "getPerson" 1 HttpMethod.GET rfl).1⟩

/-- C8: applying a verb decorator to a method whose registry entry already
carries an `httpMethod` throws an Error and leaves the entry — in
particular the registered verb — unchanged. -/
theorem verb_decorator_conflict (m : ServiceMethod) (pk : String) (len : Nat)
    (v w : HttpMethod) (h : m.httpMethod = some w) :
    (processHttpVerb pk len v m).1 = m ∧
    (processHttpVerb pk len v m).2.isSome = true := by
  simp [processHttpVerb, h]

/-- Witness for C8: `@POST` on a method already annotated `@GET` throws and
keeps the entry. -/
theorem verb_decorator_conflict_witness :
    ({ httpMethod := some HttpMethod.GET } : ServiceMethod).httpMethod = some HttpMethod.GET ∧
    (processHttpVerb "test" 0 HttpMethod.POST
      { httpMethod := some HttpMethod.GET }).1 = { httpMethod := some HttpMethod.GET } ∧
    (processHttpVerb "test" 0 HttpMethod.POST
      { httpMethod := some HttpMethod.GET }).2.isSome = true :=
  ⟨rfl,
    (verb_decorator_conflict { httpMethod := some HttpMethod.GET } "test" 0
      HttpMethod.POST HttpMethod.GET rfl).1,
    (verb_decorator_conflict { httpMethod := some HttpMethod.GET } "test" 0
      HttpMethod.POST HttpMethod.GET rfl).2⟩

/-- C9: registering a service method throws when the parameter list — with
every undecorated position padded to a body parameter — declares both a
form parameter and a body parameter, or more than one body parameter. -/
theorem service_method_body_rules (pk : String) (len : Nat) (m : ServiceMethod)
    (h : (1 ≤ formCount (padBody m.parameters len) ∧
            1 ≤ bodyCount (padBody m.parameters len)) ∨
         2 ≤ bodyCount (padBody m.parameters len)) :
    (processServiceMethod pk len m).2.isSome = true :=
  processParams_error (padBody m.parameters len)
    { m with name := some pk, parameters := padBody m.parameters len }
    (Or.inr (Or.inr (Or.inr h)))

/-- Witness for C9: a method with one `@FormParam` and one undecorated
(body) parameter fails registration. -/
theorem service_method_body_rules_witness :
    ((1 ≤ formCount (padBody [⟨some "myField", ParamType.form⟩] 2) ∧
        1 ≤ bodyCount (padBody [⟨some "myField", ParamType.form⟩] 2)) ∨
      2 ≤ bodyCount (padBody [⟨some "myField", ParamType.form⟩] 2)) ∧
    (processServiceMethod "testUploadFile" 2
      { parameters := [⟨some "myField", ParamType.form⟩] }).2.isSome = true :=
  ⟨by decide,
    service_method_body_rules "testUploadFile" 2
      { parameters := [⟨some "myField", ParamType.form⟩] } (by decide)⟩

/-- C10: the `rest.config` search terminates for every filesystem state —
the `while` loop, transcribed fuel-indexed, exits within one step per
remaining directory level plus one — and its result is either a directory
in which the file exists or `none` after reaching the root. -/
theorem search_config_file_terminates (ex : List String → Bool) (dir : List String) :
    searchConfigFileFuel ex (dir.length + 1) dir = some (searchConfigFile ex dir) ∧
    ∀ d, searchConfigFile ex dir = some d → ex d = true :=
  ⟨searchConfigFileFuel_eq ex dir (dir.length + 1) (by omega),
    fun d h => searchConfigFile_finds ex dir d h⟩

/-- Witness for C10: starting two levels deep with the file present one
level up, the loop terminates and returns the directory holding the file. -/
theorem search_config_file_terminates_witness :
    searchConfigFileFuel (fun l => decide (l = ["usr"])) 3 ["local", "usr"] =
      some (searchConfigFile (fun l => decide (l = ["usr"])) ["local", "usr"]) ∧
    (fun l : List String => decide (l = ["usr"])) ["usr"] = true :=
  ⟨(search_config_file_terminates (fun l => decide (l = ["usr"])) ["local", "usr"]).1,
    (search_config_file_terminates (fun l => decide (l = ["usr"])) ["local", "usr"]).2
      ["usr"] (by decide)⟩

end TypescriptRest
